import Mathlib

/-!
Verification of the code-mapping engine of `prd-task-decomposition-system`.

This file gives a shallow embedding, in Lean 4, of the parts of the engine
that the specification's testable properties talk about:

* `src/utils/vector-utils.js` — cosine distance over sparse term vectors;
* `src/code-mapping-engine/modules/dependency-analyzer.js` — the dependency
  graph, edge insertion, import-path resolution and bounded graph traversal;
* `src/code-mapping-engine/modules/codebase-indexer.js` — directory scanning
  and per-file indexing;
* `src/code-mapping-engine/modules/semantic-analyzer.js` — TF-IDF style
  semantic index and similarity search;
* `src/code-mapping-engine/modules/mapping-algorithm.js` — task-to-code
  mapping, dependency re-ranking and confidence buckets;
* `src/code-mapping-engine/modules/change-predictor.js` — risk levels;
* `src/code-mapping-engine/index.js` — the engine facade.

JavaScript objects used as string-keyed maps are modelled as association
lists (`List (String × _)`) preserving insertion order; JavaScript numbers
are modelled as `ℝ` where `Math.sqrt` is involved and as `ℚ` in the purely
rational parts; functions that can throw are modelled in `Except String`.
External libraries (`@babel/parser`, `natural`'s tokenizer/stemmer and the
IDF formula) are modelled as parameters, since their code is not part of
the repository.
-/

namespace CodeMap

/-! ## Vector utilities (`src/utils/vector-utils.js`) -/

/-- A sparse term-weight vector: a JavaScript object `{term: weight, ...}`
modelled as an association list with (in well-formed states) distinct keys. -/
abbrev Vec := List (String × ℝ)

/-- Lookup of `v[term]` returning `none` for a missing property. -/
def vFind (v : Vec) (t : String) : Option ℝ :=
  (v.find? (fun p => p.1 == t)).map (fun p => p.2)

/-- Lookup of `v[term]` where a missing property reads as `0` (a missing
property and a `0` entry behave identically in all the arithmetic below). -/
def vGet (v : Vec) (t : String) : ℝ :=
  (vFind v t).getD 0

/-- The dot-product loop of `cosineDistance`: iterates over the entries of
`vector1` and accumulates `vector1[term] * vector2[term]`; the source skips
terms whose `vector2[term]` is falsy (missing or `0`), which is the same as
multiplying by `0`. -/
def dotProduct (v1 v2 : Vec) : ℝ :=
  (v1.map (fun p => p.2 * vGet v2 p.1)).sum

/-- `Object.values(vector).reduce((sum, val) => sum + val * val, 0)`. -/
def sumSq (v : Vec) : ℝ :=
  (v.map (fun p => p.2 * p.2)).sum

/-- `Math.sqrt` of the sum of squares of the entries. -/
noncomputable def magnitude (v : Vec) : ℝ :=
  Real.sqrt (sumSq v)

/-- `cosineDistance(vector1, vector2)` from `vector-utils.js`: `1` when either
vector is empty, `1` when either magnitude is zero, otherwise
`1 - dot / (|v1| * |v2|)`. -/
noncomputable def cosineDistance (v1 v2 : Vec) : ℝ :=
  if v1.isEmpty || v2.isEmpty then 1
  else if magnitude v1 = 0 ∨ magnitude v2 = 0 then 1
  else 1 - dotProduct v1 v2 / (magnitude v1 * magnitude v2)

/-- The keys of a vector are distinct — automatically true of a JavaScript
object, an invariant of the association-list encoding. -/
def keysNodup (v : Vec) : Prop :=
  (v.map Prod.fst).Nodup

/-- All weights of the vector are nonnegative. -/
def vNonneg (v : Vec) : Prop :=
  ∀ p ∈ v, 0 ≤ p.2

/-! ## Generic association-list update (JavaScript property assignment) -/

/-- `obj[k] = v` on a string-keyed object: overwrite in place if the key is
present (keeping its position), otherwise append. -/
def assocSet {α : Type} (l : List (String × α)) (k : String) (v : α) :
    List (String × α) :=
  if l.any (fun p => p.1 == k) then
    l.map (fun p => if p.1 == k then (k, v) else p)
  else l ++ [(k, v)]

/-- `Object.assign(base, md)`: every property of `md` is written into `base`. -/
def objAssign (base md : List (String × ℚ)) : List (String × ℚ) :=
  md.foldl (fun acc p => assocSet acc p.1 p.2) base

/-! ## Dependency graph data (`dependency-analyzer.js`) -/

/-- A graph node. The analyzer stores per-kind extra fields (`size`,
`lastModified`, `params`, `methods`, `loc`); those are never read by the
graph logic or by any claim, and are omitted here. `path` is set for `file`
nodes, `filePath` for `function`/`class`/`method` nodes, `className` for
`method` nodes. -/
structure GNode where
  id : String
  ntype : String
  name : String
  path : Option String
  filePath : Option String
  className : Option String
  deriving DecidableEq

/-- A typed, directed edge with a metadata object (the repository only ever
stores the numeric `weight` property in it). -/
structure GEdge where
  source : String
  target : String
  etype : String
  metadata : List (String × ℚ)
  deriving DecidableEq

/-- The `dependencyGraph` value: `nodes` is a string-keyed object, `edges` an
array. The derived `metadata` counters of the source are omitted. -/
structure DepGraph where
  nodes : List (String × GNode)
  edges : List GEdge
  deriving DecidableEq

/-- `dependencyGraph.nodes[k]`. -/
def lookupNode (g : DepGraph) (k : String) : Option GNode :=
  (g.nodes.find? (fun p => p.1 == k)).map (fun p => p.2)

/-- In-place metadata merge on the first edge matching `(source, target, type)`,
modelling `Object.assign(existingEdge.metadata, metadata)`. -/
def updateFirstEdge : List GEdge → String → String → String →
    List (String × ℚ) → List GEdge
  | [], _, _, _, _ => []
  | e :: es, s, t, ty, md =>
    if e.source == s && e.target == t && e.etype == ty then
      { e with metadata := objAssign e.metadata md } :: es
    else e :: updateFirstEdge es s t ty md

/-- `addEdge(sourceId, targetId, type, metadata)`: a no-op unless both
endpoints are present in the node map; merges metadata into the first edge
with the same `(source, target, type)` triple, otherwise appends a new edge
whose metadata is `{weight: 1, ...metadata}`. -/
def addEdge (g : DepGraph) (sourceId targetId etype : String)
    (metadata : List (String × ℚ)) : DepGraph :=
  if (lookupNode g sourceId).isNone || (lookupNode g targetId).isNone then g
  else if g.edges.any
      (fun e => e.source == sourceId && e.target == targetId && e.etype == etype) then
    { g with edges := updateFirstEdge g.edges sourceId targetId etype metadata }
  else
    { g with edges := g.edges ++
        [⟨sourceId, targetId, etype, objAssign [("weight", 1)] metadata⟩] }

/-! ## Code index data (`codebase-indexer.js`) -/

/-- A source line range; the source's `loc.end` is called `endLine` because
`end` is reserved in Lean. -/
structure Loc where
  startLine : Nat
  endLine : Nat
  deriving DecidableEq

/-- A function extracted from an AST (name, parameter names, line range,
verbatim source substring). -/
structure FuncInfo where
  name : String
  params : List String
  loc : Loc
  code : String
  deriving DecidableEq

/-- A class-method descriptor. -/
structure MethodInfo where
  name : String
  params : List String
  loc : Loc
  deriving DecidableEq

/-- A class extracted from an AST. -/
structure ClsInfo where
  name : String
  methods : List MethodInfo
  loc : Loc
  code : String
  deriving DecidableEq

/-- A call expression site, as far as the analyzer looks at it: the callee
identifier, and the name the ancestor walk assigns to the nearest enclosing
function declaration or variable-bound function/arrow expression (`none`
when the call is at top level; the walk can also yield the literal string
`"anonymous"`, which the analyzer then discards). -/
structure CallSite where
  callee : String
  enclosing : Option String
  deriving DecidableEq

/-- The facts `@babel/parser` + `@babel/traverse` extract from one file, as
consumed by the indexer (`functions`, `classes`) and the dependency analyzer
(`imports` = `ImportDeclaration` sources, `requireArgs` = string literals of
call-style `require`, `calls` = identifier-callee call expressions). -/
structure Ast where
  functions : List FuncInfo
  classes : List ClsInfo
  imports : List String
  requireArgs : List String
  calls : List CallSite
  deriving DecidableEq

/-- A file record of the code index. -/
structure FileEntry where
  path : String
  name : String
  extension : String
  size : Nat
  lastModified : Option String
  functions : List FuncInfo
  classes : List ClsInfo
  deriving DecidableEq

/-- A function record in the index's global list (`{...func, filePath}`). -/
structure FuncEntry where
  name : String
  params : List String
  loc : Loc
  code : String
  filePath : String
  deriving DecidableEq

/-- A class record in the index's global list. -/
structure ClassEntry where
  name : String
  methods : List MethodInfo
  loc : Loc
  code : String
  filePath : String
  deriving DecidableEq

/-- The code index (derived metadata counters omitted). -/
structure CodeIndex where
  files : List FileEntry
  functions : List FuncEntry
  classes : List ClassEntry
  deriving DecidableEq

/-! ## Path utilities (Node's `path` module, for the inputs the analyzer
produces: absolute, `/`-separated file paths) -/

/-- Split a character list on a separator (the list of fields, like
JavaScript's `split`). -/
def splitChars (sep : Char) : List Char → List (List Char)
  | [] => [[]]
  | c :: cs =>
    match splitChars sep cs with
    | [] => [[c]]
    | h :: t => if c = sep then [] :: h :: t else (c :: h) :: t

/-- `p.split('/')`. -/
def splitOnSlash (p : String) : List String :=
  (splitChars '/' p.toList).map String.mk

/-- Join path segments with `/`. -/
def joinSlash : List String → String
  | [] => ""
  | [x] => x
  | x :: xs => x ++ "/" ++ joinSlash xs

/-- JavaScript's `s.startsWith(pre)`. -/
def strStartsWith (s pre : String) : Bool :=
  pre.toList.isPrefixOf s.toList

/-- `path.basename`. -/
def basename (p : String) : String :=
  (splitOnSlash p).getLast?.getD p

/-- `path.extname`: the suffix of the basename starting at its last dot,
empty when the basename has no dot or only a leading dot. -/
def extname (p : String) : String :=
  let base := (basename p).toList
  let after := (base.reverse.takeWhile (fun c => c ≠ '.')).length
  if after = base.length then ""
  else
    let dotPos := base.length - after - 1
    if dotPos = 0 then "" else String.mk (base.drop dotPos)

/-- `path.dirname`. -/
def dirname (p : String) : String :=
  let parts := splitOnSlash p
  if parts.length ≤ 1 then "."
  else
    let front := parts.dropLast
    if front = [""] then "/" else joinSlash front

/-- Segment normalization: drops empty and `.` segments and cancels `..`
against the previous segment (at the root, `..` stays at the root). -/
def normalizeSegs : List String → List String → List String
  | stack, [] => stack.reverse
  | stack, seg :: rest =>
    if seg = "" ∨ seg = "." then normalizeSegs stack rest
    else if seg = ".." then
      match stack with
      | [] => normalizeSegs [] rest
      | _ :: tl => normalizeSegs tl rest
    else normalizeSegs (seg :: stack) rest

/-- `path.resolve(dir, rel)` for an absolute `dir` and a relative `rel` (the
only way the analyzer calls it). -/
def resolvePath (dir rel : String) : String :=
  "/" ++ joinSlash (normalizeSegs [] (splitOnSlash (dir ++ "/" ++ rel)))

/-! ## Import resolution (`resolveImportPath`) -/

/-- Configuration of the dependency analyzer. -/
structure DAConfig where
  maxDepth : Nat
  includeNodeModules : Bool
  deriving DecidableEq

/-- The disk probe of `resolveImportPath`. `dependency-analyzer.js` binds
`const fs = require('fs').promises` at the top of the module, and the
promises API has no `existsSync`; the call `fs.existsSync(p)` therefore
throws `TypeError: fs.existsSync is not a function` on every invocation. -/
def fsExistsSyncBroken (_p : String) : Except String Bool :=
  Except.error ("TypeError: fs.existsSync is not a function")

/-- One probing loop of `resolveImportPath`: returns the first candidate for
which `fs.existsSync` yields `true`; the `try { ... } catch (e) { /* ignore */ }`
around each probe swallows the `TypeError`, so a throwing probe simply moves
on to the next candidate. -/
def probeFirst (candidates : List String) : Option String :=
  candidates.findSome? (fun pth =>
    match fsExistsSyncBroken pth with
    | Except.ok true => some pth
    | _ => none)

/-- `resolveImportPath(importPath, currentFilePath)`: bare module specifiers
are skipped; relative specifiers are resolved against the importing file's
directory; absolute specifiers pass through; an extensionless result is
probed with the four extensions and then as a directory with `index.<ext>`,
falling back to the literal resolved path. -/
def resolveImportPath (cfg : DAConfig) (importPath currentFilePath : String) :
    Option String :=
  if !cfg.includeNodeModules &&
      (strStartsWith importPath ("node_modules/") ||
        (!strStartsWith importPath (".") && !strStartsWith importPath ("/"))) then
    none
  else
    let resolvedPath : Option String :=
      if strStartsWith importPath (".") then
        some (resolvePath (dirname currentFilePath) importPath)
      else if strStartsWith importPath ("/") then some importPath
      else none
    match resolvedPath with
    | none => none
    | some rp =>
      if extname rp = "" then
        match probeFirst
            (([".js", ".jsx", ".ts", ".tsx"].map (fun ext => rp ++ ext)) ++
              ([".js", ".jsx", ".ts", ".tsx"].map (fun ext => rp ++ "/index" ++ ext))) with
        | some found => some found
        | none => some rp
      else some rp

/-- Modelled from the spec: "If the resolved path lacks an extension, the
resolver probes the configured extension list directly, then probes each
extension for an `index.<ext>` inside that path treated as a directory,
returning the first match found on disk; otherwise returns the literal
resolved path." `onDisk` is the intended on-disk existence oracle which the
source cannot consult (see `fsExistsSyncBroken`). -/
def resolveImportPathSpec (onDisk : String → Bool) (cfg : DAConfig)
    (importPath currentFilePath : String) : Option String :=
  if !cfg.includeNodeModules &&
      (strStartsWith importPath ("node_modules/") ||
        (!strStartsWith importPath (".") && !strStartsWith importPath ("/"))) then
    none
  else
    let resolvedPath : Option String :=
      if strStartsWith importPath (".") then
        some (resolvePath (dirname currentFilePath) importPath)
      else if strStartsWith importPath ("/") then some importPath
      else none
    match resolvedPath with
    | none => none
    | some rp =>
      if extname rp = "" then
        match (([".js", ".jsx", ".ts", ".tsx"].map (fun ext => rp ++ ext)) ++
            ([".js", ".jsx", ".ts", ".tsx"].map (fun ext => rp ++ "/index" ++ ext))).find?
            onDisk with
        | some found => some found
        | none => some rp
      else some rp

/-! ## Graph construction (`buildDependencyGraph` and helpers) -/

/-- A minimal model of the file system as the analyzer and indexer see it. -/
structure FS where
  readFile : String → Option String
  statMtime : String → Option String
  readdir : String → Option (List (String × Bool))

/-- `addFilesToGraph`. -/
def addFilesToGraph (g : DepGraph) (files : List FileEntry) : DepGraph :=
  files.foldl (fun g file =>
    let nodeId := "file:" ++ file.path
    { g with nodes := (assocSet g.nodes nodeId
        ⟨nodeId, "file", file.name, some file.path, none, none⟩) }) g

/-- `addFunctionsToGraph`: one node per function plus a `contains` edge to the
owning file. -/
def addFunctionsToGraph (g : DepGraph) (functions : List FuncEntry) : DepGraph :=
  functions.foldl (fun g func =>
    let nodeId := "function:" ++ func.filePath ++ ":" ++ func.name
    let g1 := { g with nodes := (assocSet g.nodes nodeId
        ⟨nodeId, "function", func.name, none, some func.filePath, none⟩) }
    addEdge g1 nodeId ("file:" ++ func.filePath) ("contains") []) g

/-- `addClassesToGraph`: class nodes with `contains` edges to their files, and
method nodes with `memberOf` edges to their classes. -/
def addClassesToGraph (g : DepGraph) (classes : List ClassEntry) : DepGraph :=
  classes.foldl (fun g cls =>
    let nodeId := "class:" ++ cls.filePath ++ ":" ++ cls.name
    let g1 := { g with nodes := (assocSet g.nodes nodeId
        ⟨nodeId, "class", cls.name, none, some cls.filePath, none⟩) }
    let g2 := addEdge g1 nodeId ("file:" ++ cls.filePath) ("contains") []
    cls.methods.foldl (fun g method =>
      let methodNodeId :=
        "method:" ++ cls.filePath ++ ":" ++ cls.name ++ "." ++ method.name
      let g3 := { g with nodes := (assocSet g.nodes methodNodeId
          ⟨methodNodeId, "method", method.name, none, some cls.filePath,
            some cls.name⟩) }
      addEdge g3 methodNodeId nodeId ("memberOf") []) g2) g

/-- `analyzeFileDependencies`: per file, read and parse, then add an
`imports` edge per `ImportDeclaration` and a `requires` edge per string-literal
`require(...)` whose specifier resolves; read or parse failures are caught and
skip the file. (The source visits import and require sites in one AST pass;
only edge-list order, which no property depends on, distinguishes that from
the two folds here.) -/
def analyzeFileDependencies (fs : FS) (parseAst : String → Option Ast)
    (cfg : DAConfig) (g : DepGraph) (files : List FileEntry) : DepGraph :=
  files.foldl (fun g file =>
    match fs.readFile file.path with
    | none => g
    | some content =>
      match parseAst content with
      | none => g
      | some ast =>
        let g1 := ast.imports.foldl (fun g imp =>
          match resolveImportPath cfg imp file.path with
          | none => g
          | some rp =>
            addEdge g ("file:" ++ file.path) ("file:" ++ rp) ("imports") []) g
        ast.requireArgs.foldl (fun g imp =>
          match resolveImportPath cfg imp file.path with
          | none => g
          | some rp =>
            addEdge g ("file:" ++ file.path) ("file:" ++ rp) ("requires") []) g1) g

/-- `analyzeFunctionCalls`: builds the name → id map over all known functions
(later entries overwrite earlier ones), then adds a `calls` edge for every
call site whose callee is known and whose enclosing scope has a resolvable
name other than `anonymous`. -/
def analyzeFunctionCalls (fs : FS) (parseAst : String → Option Ast)
    (g : DepGraph) (functions : List FuncEntry) (files : List FileEntry) :
    DepGraph :=
  let functionMap : List (String × String) :=
    functions.foldl (fun m func =>
      assocSet m func.name ("function:" ++ func.filePath ++ ":" ++ func.name)) []
  files.foldl (fun g file =>
    match fs.readFile file.path with
    | none => g
    | some content =>
      match parseAst content with
      | none => g
      | some ast =>
        ast.calls.foldl (fun g cs =>
          match (functionMap.find? (fun p => p.1 == cs.callee)).map
              (fun p => p.2) with
          | none => g
          | some calleeId =>
            match cs.enclosing with
            | none => g
            | some currentFunctionName =>
              if currentFunctionName = "" ∨ currentFunctionName = "anonymous"
              then g
              else
                addEdge g ("function:" ++ file.path ++ ":" ++ currentFunctionName)
                  calleeId ("calls") [("weight", 1)]) g) g

/-- `buildDependencyGraph(codeIndex)` (derived metadata counters omitted). -/
def buildDependencyGraph (fs : FS) (parseAst : String → Option Ast)
    (cfg : DAConfig) (ci : CodeIndex) : DepGraph :=
  let g0 : DepGraph := ⟨[], []⟩
  let g1 := addFilesToGraph g0 ci.files
  let g2 := addFunctionsToGraph g1 ci.functions
  let g3 := addClassesToGraph g2 ci.classes
  let g4 := analyzeFileDependencies fs parseAst cfg g3 ci.files
  analyzeFunctionCalls fs parseAst g4 ci.functions ci.files

/-! ## Bounded traversal (`getNodeDependencies` / `getDependenciesRecursive`) -/

/-- The options object of `getNodeDependencies`, with its defaults
`{direction: 'outgoing', types: null, depth: 1, maxResults: 100}`. -/
structure GNDOptions where
  direction : String
  types : Option (List String)
  depth : Nat
  maxResults : Nat
  deriving DecidableEq

/-- One returned dependency record `{id, node, edge, depth}`. -/
structure DepEntry where
  id : String
  node : GNode
  edge : GEdge
  depth : Nat
  deriving DecidableEq

/-- The mutable state of one `getNodeDependencies` call: the `visited` set and
the `dependencies` output array. -/
structure TravState where
  visited : List String
  deps : List DepEntry
  deriving DecidableEq

/-- The edge filter of `getDependenciesRecursive`: direction first, then the
optional `types` allow-list. -/
def relevantEdges (g : DepGraph) (opts : GNDOptions) (nodeId : String) :
    List GEdge :=
  let dir := g.edges.filter (fun e =>
    if opts.direction == "outgoing" then e.source == nodeId
    else if opts.direction == "incoming" then e.target == nodeId
    else e.source == nodeId || e.target == nodeId)
  match opts.types with
  | none => dir
  | some ts => dir.filter (fun e => ts.contains e.etype)

/-- `options.direction === 'incoming' ? edge.source : edge.target`. -/
def pickTarget (opts : GNDOptions) (e : GEdge) : String :=
  if opts.direction == "incoming" then e.source else e.target

/-- The edge loop of `getDependenciesRecursive`: skips visited or unknown
targets, pushes a dependency record at depth `dPlus1`, returns from the frame
as soon as `maxResults` is reached, and otherwise recurses (`goN`) into the
target before continuing with the remaining edges. -/
def goEdges (g : DepGraph) (opts : GNDOptions)
    (goN : String → TravState → TravState) (dPlus1 : Nat) :
    List GEdge → TravState → TravState
  | [], st => st
  | e :: es, st =>
    let targetId := pickTarget opts e
    if targetId ∈ st.visited then goEdges g opts goN dPlus1 es st
    else
      match lookupNode g targetId with
      | none => goEdges g opts goN dPlus1 es st
      | some targetNode =>
        let st1 : TravState :=
          { st with deps := st.deps ++ [⟨targetId, targetNode, e, dPlus1⟩] }
        if opts.maxResults ≤ st1.deps.length then st1
        else goEdges g opts goN dPlus1 es (goN targetId st1)

/-- `getDependenciesRecursive(nodeId, options, visited, dependencies,
currentDepth)`. The extra `fuel` argument only serves termination: every call
keeps `opts.depth - d ≤ fuel`, so the `0` case is never the reason a branch
stops — the `opts.depth ≤ d` guard of the source always fires first. -/
def goNode (g : DepGraph) (opts : GNDOptions) :
    Nat → Nat → String → TravState → TravState
  | 0, _, _, st => st
  | fuel + 1, d, nodeId, st =>
    if opts.depth ≤ d then st
    else
      goEdges g opts (fun t s => goNode g opts fuel (d + 1) t s) (d + 1)
        (relevantEdges g opts nodeId)
        { st with visited := nodeId :: st.visited }

/-- `getNodeDependencies(nodeId, options)`: empty for an unknown start node,
otherwise the dependencies array of the recursive traversal started with a
fresh `visited` set at depth `0`. -/
def getNodeDependencies (g : DepGraph) (nodeId : String) (opts : GNDOptions) :
    List DepEntry :=
  if (lookupNode g nodeId).isNone then []
  else (goNode g opts opts.depth 0 nodeId ⟨[], []⟩).deps

/-- The defaults of `getNodeDependencies`' options object. -/
def defaultGNDOptions : GNDOptions :=
  ⟨"outgoing", none, 1, 100⟩

/-! ## Codebase indexer (`codebase-indexer.js`) -/

/-- Indexer configuration (defaults: depth 3, the four JS/TS extensions, and
the usual excluded directories). -/
structure IndexerConfig where
  excludeDirs : List String
  fileExtensions : List String
  indexDepth : Nat
  deriving DecidableEq

/-- `parseCode(code, fileIndex)`: extracts top-level functions and classes;
its own `try/catch` turns a parse failure into empty lists. -/
def parseCode (parseAst : String → Option Ast) (code : String) :
    List FuncInfo × List ClsInfo :=
  match parseAst code with
  | none => ([], [])
  | some ast => (ast.functions, ast.classes)

/-- `indexFile(filePath)`: reads the file and its stat, parses it, appends the
file record, and appends each found function/class (with `filePath` attached)
to the global lists. A read or stat failure is caught and leaves the index
unchanged; a parse failure leaves the file in the index with empty lists. -/
def indexFile (fs : FS) (parseAst : String → Option Ast) (filePath : String)
    (idx : CodeIndex) : CodeIndex :=
  match fs.readFile filePath with
  | none => idx
  | some content =>
    match fs.statMtime filePath with
    | none => idx
    | some mtime =>
      let parsed := parseCode parseAst content
      let fileEntry : FileEntry :=
        ⟨filePath, basename filePath, extname filePath, content.length,
          some mtime, parsed.1, parsed.2⟩
      { files := idx.files ++ [fileEntry],
        functions := idx.functions ++
          parsed.1.map (fun f => ⟨f.name, f.params, f.loc, f.code, filePath⟩),
        classes := idx.classes ++
          parsed.2.map (fun c => ⟨c.name, c.methods, c.loc, c.code, filePath⟩) }

/-- One step of the directory-entry loop of `scanDirectory`: descend into a
non-excluded directory (via `recurseDir`), index a file whose extension is in
the allow-list, and ignore everything else. -/
def scanStep (fs : FS) (parseAst : String → Option Ast) (cfg : IndexerConfig)
    (recurseDir : String → CodeIndex → CodeIndex) (dirPath : String)
    (idx : CodeIndex) (entry : String × Bool) : CodeIndex :=
  let entryPath := dirPath ++ "/" ++ entry.1
  if entry.2 then
    if cfg.excludeDirs.contains entry.1 then idx else recurseDir entryPath idx
  else
    if cfg.fileExtensions.contains (extname entry.1) then
      indexFile fs parseAst entryPath idx
    else idx

/-- `scanDirectory(dirPath, depth)`: stops past the configured depth; a
directory-read failure is caught and leaves the index unchanged; otherwise
folds `scanStep` over the listing. `fuel` only serves termination: the top
call passes `indexDepth + 1`, which the `indexDepth < depth` guard always
exhausts first. -/
def scanDirectory (fs : FS) (parseAst : String → Option Ast)
    (cfg : IndexerConfig) : Nat → String → Nat → CodeIndex → CodeIndex
  | 0, _, _, idx => idx
  | fuel + 1, dirPath, depth, idx =>
    if cfg.indexDepth < depth then idx
    else
      match fs.readdir dirPath with
      | none => idx
      | some entries =>
        entries.foldl
          (scanStep fs parseAst cfg
            (fun p i => scanDirectory fs parseAst cfg fuel p (depth + 1) i)
            dirPath) idx

/-- `indexCodebase(codebasePath)` (derived metadata counters omitted). -/
def indexCodebase (fs : FS) (parseAst : String → Option Ast)
    (cfg : IndexerConfig) (codebasePath : String) : CodeIndex :=
  scanDirectory fs parseAst cfg (cfg.indexDepth + 1) codebasePath 0 ⟨[], [], []⟩

/-! ## Semantic analyzer (`semantic-analyzer.js`) -/

/-- One document of the `natural` TF-IDF model: the key passed to
`addDocument` and the token list of the document. -/
structure TfDoc where
  key : String
  terms : List String

/-- The `natural` TF-IDF model. The library computes `idf` from the corpus;
since its code is not part of the repository, the per-term IDF value is a
parameter. `tfidfValue` and `docHasTerm` below model the documented
behaviour of `tfidf()` and of a document's term-count properties. -/
structure TfIdfModel where
  documents : List TfDoc
  idfVal : String → ℝ

/-- Truthiness of `documents[i][token]`: the token occurs in the document. -/
def docHasTerm (d : TfDoc) (tok : String) : Bool :=
  d.terms.contains tok

/-- `addDocument(tokens, key)`. -/
def addDocument (m : TfIdfModel) (tokens : List String) (key : String) :
    TfIdfModel :=
  { m with documents := m.documents ++ [⟨key, tokens⟩] }

/-- The TF-IDF weight of `tok` in the document registered under `key`:
raw term count times IDF, `0` for an unknown document. -/
def tfidfValue (m : TfIdfModel) (tok : String) (key : String) : ℝ :=
  match m.documents.find? (fun d => d.key == key) with
  | none => 0
  | some d => (d.terms.count tok : ℝ) * m.idfVal tok

/-- A semantic-index entry. File entries set `path`; function entries set
`name`, `filePath` and `params`; class entries set `name`, `filePath` and
`methods`; the remaining fields stay `none` (JavaScript `undefined`).
`vector` is `null` until the second pass fills it. -/
structure SemEntry where
  name : Option String
  filePath : Option String
  path : Option String
  tokens : List String
  vector : Option Vec
  keywords : List (String × ℝ)
  params : Option (List String)
  methods : Option (List String)

/-- The semantic index: three string-keyed objects. -/
structure SemanticIndex where
  files : List (String × SemEntry)
  functions : List (String × SemEntry)
  classes : List (String × SemEntry)

/-- Analyzer configuration (defaults: minimum token length 3, the stopword
list, threshold 0.7). -/
structure SAConfig where
  minTokenLength : Nat
  stopWords : List String
  similarityThreshold : ℝ

/-- The semantic analyzer. `tokenizeWords` models `natural.WordTokenizer`
and `stem` models `natural.PorterStemmer.stem`; both are external library
functions and therefore parameters of the model. -/
structure SemanticAnalyzer where
  config : SAConfig
  tokenizeWords : String → List String
  stem : String → String
  tfidf : TfIdfModel
  semanticIndex : SemanticIndex

/-- The camel-case split `text.replace(/([a-z])([A-Z])/g, '$1 $2')`. -/
def camelSpaceAux : List Char → List Char
  | [] => []
  | [c] => [c]
  | a :: b :: rest =>
    if a.isLower && b.isUpper then a :: ' ' :: camelSpaceAux (b :: rest)
    else a :: camelSpaceAux (b :: rest)

/-- String form of the camel-case split. -/
def camelSpace (s : String) : String :=
  String.mk (camelSpaceAux s.toList)

/-- `tokenizeAndStem(text)`: camel-case split, lower-case, tokenize, drop
short tokens and stopwords, stem. -/
def tokenizeAndStem (sa : SemanticAnalyzer) (text : String) : List String :=
  let spacedText := camelSpace text
  let tokens := sa.tokenizeWords (spacedText.toLower)
  let filteredTokens := tokens.filter (fun t =>
    sa.config.minTokenLength ≤ t.length && !(sa.config.stopWords.contains t))
  filteredTokens.map sa.stem

/-- `[...new Set(tokens)]`: first occurrences, in order. -/
def uniqueFirst (l : List String) : List String :=
  l.foldl (fun acc t => if acc.contains t then acc else acc ++ [t]) []

/-- `calculateTfIdfVector(tokens, docId)`: the unique tokens of the document
mapped to their TF-IDF weights. -/
def calculateTfIdfVector (m : TfIdfModel) (tokens : List String)
    (docId : String) : Vec :=
  (uniqueFirst tokens).map (fun t => (t, tfidfValue m t docId))

/-- `extractKeywords(docId, count)`: the document's terms ranked by
descending TF-IDF weight, truncated to `count` (modelling `listTerms`). -/
noncomputable def extractKeywords (m : TfIdfModel) (docId : String)
    (count : Nat) : List (String × ℝ) :=
  match m.documents.find? (fun d => d.key == docId) with
  | none => []
  | some d =>
    (((uniqueFirst d.terms).map (fun t => (t, tfidfValue m t docId))).mergeSort
      (fun a b => decide (b.2 ≤ a.2))).take count

/-- `file.name.replace(/\.[^/.]+$/, '')`: strip one trailing extension. -/
def stripLastExt (s : String) : String :=
  let cs := s.toList
  let suf := cs.reverse.takeWhile (fun c => c ≠ '.' && c ≠ '/')
  if suf.length < cs.length && cs.get? (cs.length - suf.length - 1) = some '.' &&
      0 < suf.length then
    String.mk (cs.take (cs.length - suf.length - 1))
  else s

/-- `cosineDistance` as called with possibly-`null` vectors (the source
returns `1` when either argument is falsy). -/
noncomputable def cosineDistanceOpt (v1 v2 : Option Vec) : ℝ :=
  match v1, v2 with
  | some a, some b => cosineDistance a b
  | _, _ => 1

/-- `calculateSimilarity(vector1, vector2) = 1 - cosineDistance(...)`. -/
noncomputable def calculateSimilarity (v1 v2 : Option Vec) : ℝ :=
  1 - cosineDistanceOpt v1 v2

/-- `analyzeFiles(files)`: first pass registers each file's name tokens as a
TF-IDF document keyed by path and stores a vectorless entry; the second pass
fills in vector and keywords. -/
noncomputable def analyzeFiles (sa : SemanticAnalyzer)
    (files : List FileEntry) : SemanticAnalyzer :=
  let sa1 := files.foldl (fun sa file =>
    let fileNameTokens := tokenizeAndStem sa (stripLastExt file.name)
    { sa with
      tfidf := addDocument sa.tfidf fileNameTokens file.path,
      semanticIndex := { sa.semanticIndex with
        files := (assocSet sa.semanticIndex.files file.path
          ⟨none, none, some file.path, fileNameTokens, none, [], none, none⟩) } }) sa
  files.foldl (fun sa file =>
    match (sa.semanticIndex.files.find? (fun p => p.1 == file.path)).map
        (fun p => p.2) with
    | none => sa
    | some fileSemantics =>
      let vector := calculateTfIdfVector sa.tfidf fileSemantics.tokens file.path
      let keywords := extractKeywords sa.tfidf file.path 5
      { sa with semanticIndex := { sa.semanticIndex with
          files := (assocSet sa.semanticIndex.files file.path
            { fileSemantics with vector := some vector, keywords := keywords }) } })
    sa1

/-- `analyzeFunctions(functions)`: like `analyzeFiles`, with documents keyed
`function:<path>:<name>` whose tokens combine the name and the source
snippet. -/
noncomputable def analyzeFunctions (sa : SemanticAnalyzer)
    (functions : List FuncEntry) : SemanticAnalyzer :=
  let sa1 := functions.foldl (fun sa func =>
    let allTokens := tokenizeAndStem sa func.name ++ tokenizeAndStem sa func.code
    let docId := "function:" ++ func.filePath ++ ":" ++ func.name
    { sa with
      tfidf := addDocument sa.tfidf allTokens docId,
      semanticIndex := { sa.semanticIndex with
        functions := (assocSet sa.semanticIndex.functions docId
          ⟨some func.name, some func.filePath, none, allTokens, none, [],
            some func.params, none⟩) } }) sa
  functions.foldl (fun sa func =>
    let docId := "function:" ++ func.filePath ++ ":" ++ func.name
    match (sa.semanticIndex.functions.find? (fun p => p.1 == docId)).map
        (fun p => p.2) with
    | none => sa
    | some funcSemantics =>
      let vector := calculateTfIdfVector sa.tfidf funcSemantics.tokens docId
      let keywords := extractKeywords sa.tfidf docId 5
      { sa with semanticIndex := { sa.semanticIndex with
          functions := (assocSet sa.semanticIndex.functions docId
            { funcSemantics with vector := some vector, keywords := keywords }) } })
    sa1

/-- `analyzeClasses(classes)`. -/
noncomputable def analyzeClasses (sa : SemanticAnalyzer)
    (classes : List ClassEntry) : SemanticAnalyzer :=
  let sa1 := classes.foldl (fun sa cls =>
    let allTokens := tokenizeAndStem sa cls.name ++ tokenizeAndStem sa cls.code
    let docId := "class:" ++ cls.filePath ++ ":" ++ cls.name
    { sa with
      tfidf := addDocument sa.tfidf allTokens docId,
      semanticIndex := { sa.semanticIndex with
        classes := (assocSet sa.semanticIndex.classes docId
          ⟨some cls.name, some cls.filePath, none, allTokens, none, [], none,
            some (cls.methods.map (fun m => m.name))⟩) } }) sa
  classes.foldl (fun sa cls =>
    let docId := "class:" ++ cls.filePath ++ ":" ++ cls.name
    match (sa.semanticIndex.classes.find? (fun p => p.1 == docId)).map
        (fun p => p.2) with
    | none => sa
    | some clsSemantics =>
      let vector := calculateTfIdfVector sa.tfidf clsSemantics.tokens docId
      let keywords := extractKeywords sa.tfidf docId 5
      { sa with semanticIndex := { sa.semanticIndex with
          classes := (assocSet sa.semanticIndex.classes docId
            { clsSemantics with vector := some vector, keywords := keywords }) } })
    sa1

/-- `analyzeCodebase(codeIndex)`: resets the TF-IDF model and the semantic
index, then analyzes files, functions and classes in that order. -/
noncomputable def analyzeCodebase (sa : SemanticAnalyzer) (ci : CodeIndex) :
    SemanticAnalyzer :=
  let sa0 := { sa with
    tfidf := ⟨[], sa.tfidf.idfVal⟩,
    semanticIndex := ⟨[], [], []⟩ }
  let sa1 := analyzeFiles sa0 ci.files
  let sa2 := analyzeFunctions sa1 ci.functions
  analyzeClasses sa2 ci.classes

/-! ## Similarity search (`findSimilarElements`) -/

/-- One search result `{type, item, similarity}`. -/
structure SimResult where
  rtype : String
  item : SemEntry
  similarity : ℝ

/-- The options object of `findSimilarElements`; missing properties fall back
to `{limit: 10, types: ['files','functions','classes'],
threshold: config.similarityThreshold}`. -/
structure FindOptions where
  limit : Option Nat
  types : Option (List String)
  threshold : Option ℝ

/-- The query vector: each query token is mapped to the average of
`idf(token)` over the documents containing the token, `0` if none does. -/
noncomputable def buildQueryVector (sa : SemanticAnalyzer)
    (queryTokens : List String) : Vec :=
  queryTokens.foldl (fun qv token =>
    let containing := sa.tfidf.documents.filter (fun d => docHasTerm d token)
    let totalIdf := (containing.map (fun _ => sa.tfidf.idfVal token)).sum
    let avgIdf := if 0 < containing.length then totalIdf / containing.length else 0
    assocSet qv token avgIdf) []

/-- One of the three search loops of `findSimilarElements`: score every entry
against the query vector and keep those at or above the threshold. -/
noncomputable def simScan (qv : Vec) (threshold : ℝ) (rtype : String)
    (entries : List (String × SemEntry)) : List SimResult :=
  entries.filterMap (fun p =>
    let similarity := calculateSimilarity (some qv) p.2.vector
    if threshold ≤ similarity then some ⟨rtype, p.2, similarity⟩ else none)

/-- `findSimilarElements(query, options)`: build the query vector, scan the
requested element kinds, keep scores at or above the threshold, sort by
descending similarity and truncate to `limit`. -/
noncomputable def findSimilarElements (sa : SemanticAnalyzer) (query : String)
    (opts : FindOptions) : List SimResult :=
  let limit := opts.limit.getD 10
  let types := opts.types.getD ["files", "functions", "classes"]
  let threshold := opts.threshold.getD sa.config.similarityThreshold
  let queryVector := buildQueryVector sa (tokenizeAndStem sa query)
  let results :=
    (if types.contains ("files") then
      simScan queryVector threshold ("file") sa.semanticIndex.files
     else []) ++
    (if types.contains ("functions") then
      simScan queryVector threshold ("function") sa.semanticIndex.functions
     else []) ++
    (if types.contains ("classes") then
      simScan queryVector threshold ("class") sa.semanticIndex.classes
     else [])
  (results.mergeSort (fun a b => decide (b.similarity ≤ a.similarity))).take limit

/-! ## Mapping algorithm (`mapping-algorithm.js`) -/

/-- A task object. Every field except `id` may be absent. -/
structure Task where
  id : String
  title : Option String
  description : Option String
  ttype : Option String
  keywords : Option (List String)
  dependencies : Option (List String)

/-- Mapping-algorithm configuration (defaults: threshold 0.7, maxResults 10,
weightKeywords 0.6, weightDescription 0.4). -/
structure MAConfig where
  similarityThreshold : ℝ
  maxResults : Nat
  weightKeywords : ℝ
  weightDescription : ℝ

/-- The result of `analyzeTask(task)`. -/
structure TaskAnalysis where
  task : Task
  taskText : String
  keywords : List String
  title : String
  description : String
  ttype : String

/-- `analyzeTask(task)`: missing fields default to empty. -/
def analyzeTask (task : Task) : TaskAnalysis :=
  let keywords := task.keywords.getD []
  let title := task.title.getD ""
  let description := task.description.getD ""
  let ttype := task.ttype.getD ""
  let taskText :=
    title ++ " " ++ description ++ " " ++ ttype ++ " " ++
      String.intercalate " " keywords
  ⟨task, taskText, keywords, title, description, ttype⟩

/-- A merged search result: `{...result, weight, originalSimilarity}`, later
extended by `rankResultsByDependencies` with `dependencyScore`/`finalScore`
(absent — `undefined` — until then). -/
structure CombElem where
  rtype : String
  item : SemEntry
  similarity : ℝ
  weight : ℝ
  originalSimilarity : ℝ
  dependencyScore : Option ℝ
  finalScore : Option ℝ

/-- String interpolation of a possibly-undefined value (JavaScript renders
`undefined` as the string `undefined` inside a template literal). -/
def jsStr (o : Option String) : String :=
  o.getD "undefined"

/-- The merge key of `combineSearchResults` and `getElementKey`:
`type:filePath:name` built from the item's (possibly absent) fields. -/
def elemKey (rtype : String) (item : SemEntry) : String :=
  rtype ++ ":" ++ jsStr item.filePath ++ ":" ++ jsStr item.name

/-- `getElementKey(element)`. -/
def getElementKey (element : CombElem) : String :=
  elemKey element.rtype element.item

/-- `combineSearchResults(resultSets)`: merge by element key into an
insertion-ordered map, recomputing the similarity of a repeated element as
the running weighted average and accumulating its weight, then sort the
values by descending similarity. -/
noncomputable def combineSearchResults
    (resultSets : List (List SimResult × ℝ)) : List CombElem :=
  let combined := resultSets.foldl (fun m rs =>
    rs.1.foldl (fun m r =>
      let key := elemKey r.rtype r.item
      match (m.find? (fun p => p.1 == key)).map (fun p => p.2) with
      | some existing =>
        let newWeight := existing.weight + rs.2
        let newSimilarity :=
          (existing.similarity * existing.weight + r.similarity * rs.2) / newWeight
        assocSet m key
          { existing with similarity := newSimilarity, weight := newWeight }
      | none =>
        m ++ [(key, ⟨r.rtype, r.item, r.similarity, rs.2, r.similarity,
          none, none⟩)]) m) ([] : List (String × CombElem))
  (combined.map (fun p => p.2)).mergeSort
    (fun a b => decide (b.similarity ≤ a.similarity))

/-- `findSimilarCodeElements(taskAnalysis, semanticAnalyzer)`: three queries
(title at 0.8× threshold, description at 1.0×, joined keywords at 0.9×)
merged with blend weights 0.3 / 0.4 / 0.3. -/
noncomputable def findSimilarCodeElements (cfg : MAConfig)
    (ta : TaskAnalysis) (sa : SemanticAnalyzer) : List CombElem :=
  let titleResults := findSimilarElements sa ta.title
    ⟨none, none, some (cfg.similarityThreshold * 0.8)⟩
  let descriptionResults := findSimilarElements sa ta.description
    ⟨none, none, some cfg.similarityThreshold⟩
  let keywordResults := findSimilarElements sa
    (String.intercalate " " ta.keywords)
    ⟨none, none, some (cfg.similarityThreshold * 0.9)⟩
  combineSearchResults
    [(titleResults, 0.3), (descriptionResults, 0.4), (keywordResults, 0.3)]

/-- The graph argument of `mapTask` as the code duck-types it: the traversal
method is present on a `DependencyAnalyzer` instance but absent from the
plain `{nodes, edges, metadata}` data object that `buildDependencyGraph`
returns and the engine stores. -/
structure GraphHandle where
  nodeDepsMethod : Option (String → List DepEntry)

/-- `elemDep.includes(taskDep)` where `elemDep` is one `{id, node, edge,
depth}` record returned by `getNodeDependencies`: plain objects have no
`includes` method, so the call throws. -/
def entryStrIncludes (_elemDep : DepEntry) (_taskDep : String) :
    Except String Bool :=
  Except.error ("TypeError: elemDep.includes is not a function")

/-- `s.includes(sub)` on strings. -/
def jsStringIncludes (s sub : String) : Bool :=
  decide (List.IsInfix sub.toList s.toList)

/-- `elemDep.includes(taskDep) || taskDep.includes(elemDep)`. The second
operand would coerce the record to the string `[object Object]`; it is never
reached, because the first operand already throws. -/
def depPairMatches (elemDep : DepEntry) (taskDep : String) :
    Except String Bool := do
  let b1 ← entryStrIncludes elemDep taskDep
  if b1 then pure true
  else pure (jsStringIncludes taskDep ("[object Object]"))

/-- `rankResultsByDependencies(similarElements, dependencyGraph, task)`:
returns the elements unchanged when the graph exposes no traversal;
otherwise scores every element by matching its one-hop dependencies against
the task's declared dependencies (0.1 per match), computes
`finalScore = similarity*0.8 + dependencyScore*0.2` and sorts by descending
final score. The result is an `Except` because the matching loop evaluates
`elemDep.includes`, which throws (see `entryStrIncludes`). -/
noncomputable def rankResultsByDependencies (dg : GraphHandle)
    (similarElements : List CombElem) (task : Task) :
    Except String (List CombElem) :=
  match dg.nodeDepsMethod with
  | none => Except.ok similarElements
  | some getDeps => do
    let taskDependencies := task.dependencies.getD []
    let rankedResults ← similarElements.mapM (fun element => do
      let elementKey := getElementKey element
      let elementDependencies := getDeps elementKey
      let dependencyScore ← taskDependencies.foldlM (fun acc taskDep =>
        elementDependencies.foldlM (fun acc2 elemDep => do
          let b ← depPairMatches elemDep taskDep
          pure (if b then acc2 + 0.1 else acc2)) acc) (0 : ℝ)
      let finalScore := element.similarity * 0.8 + dependencyScore * 0.2
      pure { element with
        dependencyScore := some dependencyScore,
        finalScore := some finalScore })
    pure (rankedResults.mergeSort
      (fun a b => decide (b.finalScore.getD 0 ≤ a.finalScore.getD 0)))

/-- JavaScript `x || y` for a number that may be absent: `undefined` and `0`
are falsy and fall through to `y`. -/
noncomputable def jsOr (x : Option ℝ) (y : ℝ) : ℝ :=
  match x with
  | none => y
  | some v => if v = 0 then y else v

/-- `calculateConfidence(score)`. -/
noncomputable def calculateConfidence (score : ℝ) : String :=
  if 0.8 ≤ score then "high"
  else if 0.6 ≤ score then "medium"
  else "low"

/-- The `task` sub-object of a mapping result. -/
structure TaskRef where
  id : String
  title : Option String
  ttype : Option String

/-- The `codeElement` sub-object. `location` is `item.loc || {start:0,end:0}`;
semantic-index items carry no `loc` property, so it is always the zero
range. -/
structure CodeElementRef where
  ctype : String
  name : Option String
  filePath : Option String
  location : Loc

/-- The `mapping` sub-object. -/
structure MappingBlock where
  similarity : ℝ
  dependencyScore : ℝ
  finalScore : ℝ
  confidence : String

/-- One final mapping result. -/
structure MappingResult where
  task : TaskRef
  codeElement : CodeElementRef
  mapping : MappingBlock

/-- `generateMappingResults(rankedResults, task)`: truncate to `maxResults`
and convert to the standard shape. -/
noncomputable def generateMappingResults (cfg : MAConfig)
    (rankedResults : List CombElem) (task : Task) : List MappingResult :=
  (rankedResults.take cfg.maxResults).map (fun result =>
    { task := ⟨task.id, task.title, task.ttype⟩,
      codeElement :=
        ⟨result.rtype, result.item.name, result.item.filePath, ⟨0, 0⟩⟩,
      mapping :=
        { similarity := result.similarity,
          dependencyScore := jsOr result.dependencyScore 0,
          finalScore := jsOr result.finalScore result.similarity,
          confidence :=
            calculateConfidence (jsOr result.finalScore result.similarity) } })

/-- The process-global state `global` as the mapping algorithm reads it:
`global.semanticAnalyzer`, unset unless some external code assigns it. -/
structure GlobalState where
  semanticAnalyzer : Option SemanticAnalyzer

/-- `mapTask(task, codeIndex, dependencyGraph)`: reads the semantic analyzer
from the process-global slot and fails when it is absent; otherwise runs
task analysis, the three-way similarity search, dependency re-ranking and
result generation. -/
noncomputable def mapTask (gl : GlobalState) (cfg : MAConfig) (task : Task)
    (_codeIndex : CodeIndex) (dg : GraphHandle) :
    Except String (List MappingResult) :=
  match gl.semanticAnalyzer with
  | none =>
    Except.error
      ("Semantic analyzer not available. Initialize the code mapping engine first.")
  | some semanticAnalyzer => do
    let taskAnalysis := analyzeTask task
    let similarElements := findSimilarCodeElements cfg taskAnalysis semanticAnalyzer
    let rankedResults ← rankResultsByDependencies dg similarElements task
    pure (generateMappingResults cfg rankedResults task)

/-! ## Engine facade (`index.js`) -/

/-- A `CodeMappingEngine` instance: configuration plus the module instances
and the state set by initialization (`codeIndex`, `dependencyGraph`, both
`null` until then). -/
structure Engine where
  indexerConfig : IndexerConfig
  daConfig : DAConfig
  maConfig : MAConfig
  semanticAnalyzer : SemanticAnalyzer
  codeIndex : Option CodeIndex
  dependencyGraph : Option DepGraph

/-- `engine.initialize(codebasePath)`: indexes the codebase, runs semantic
analysis on the instance's own analyzer, and builds the dependency graph.
The body of `initialize` never references `global`, so this function does
not touch `GlobalState` at all: only the engine instance is updated. -/
noncomputable def initializeEngine (fs : FS) (parseAst : String → Option Ast)
    (eng : Engine) (codebasePath : String) : Engine :=
  let ci := indexCodebase fs parseAst eng.indexerConfig codebasePath
  let sa2 := analyzeCodebase eng.semanticAnalyzer ci
  let dg := buildDependencyGraph fs parseAst eng.daConfig ci
  { eng with
    codeIndex := some ci,
    semanticAnalyzer := sa2,
    dependencyGraph := some dg }

/-- `engine.mapTaskToCode(task)`: fails when `codeIndex` is unset, otherwise
delegates to `mapTask`. The stored `dependencyGraph` is the plain data
object, which exposes no `getNodeDependencies` method — hence the handle
with `nodeDepsMethod := none`. -/
noncomputable def mapTaskToCode (eng : Engine) (gl : GlobalState)
    (task : Task) : Except String (List MappingResult) :=
  match eng.codeIndex with
  | none =>
    Except.error
      ("Code mapping engine not initialized. Call initialize() first.")
  | some ci => mapTask gl eng.maConfig task ci ⟨none⟩

/-! ## Change predictor (`change-predictor.js`) -/

/-- An aggregated impacted/dependency file record of the merged impact
analysis. All the predictor's arithmetic is rational, so weights are `ℚ`. -/
structure FileImpact where
  path : String
  elements : List String
  weight : ℚ
  deriving DecidableEq

/-- An aggregated node record of the merged impact analysis. -/
structure NodeImpact where
  node : GNode
  sources : List String
  weight : ℚ
  deriving DecidableEq

/-- The merged impact analysis produced by `mergeImpactAnalysis`. -/
structure MergedImpact where
  impactedNodes : List NodeImpact
  dependencyNodes : List NodeImpact
  impactedFiles : List FileImpact
  dependencyFiles : List FileImpact
  totalImpactScore : ℚ
  totalDependencyScore : ℚ
  deriving DecidableEq

/-- `calculateRiskLevel(impactAnalysis)`. -/
def calculateRiskLevel (ia : MergedImpact) : String :=
  if 50 < ia.totalImpactScore ∨ 20 < ia.impactedFiles.length then "high"
  else if 20 < ia.totalImpactScore ∨ 10 < ia.impactedFiles.length then "medium"
  else "low"

/-! ## Concrete instances used by the counterexample and witness theorems -/

/-- A two-node graph in which `A` both imports and requires `B`: two distinct
edges with the same endpoints (edge identity includes the type). -/
def cg1 : DepGraph :=
  { nodes := [("A", ⟨"A", "file", "a.js", some "/p/a.js", none, none⟩),
              ("B", ⟨"B", "file", "b.js", some "/p/b.js", none, none⟩)],
    edges := [⟨"A", "B", "imports", [("weight", 1)]⟩,
              ⟨"A", "B", "requires", [("weight", 1)]⟩] }

/-- Options used against `cg1`: plain outgoing traversal of depth 1. -/
def cg1opts : GNDOptions :=
  ⟨"outgoing", none, 1, 100⟩

/-- A graph on which `maxResults = 2` is overshot: from `A`, pushing `B`,
recursing to push `C` (reaching the cutoff), then still pushing `D` in the
outer frame. -/
def cg2 : DepGraph :=
  { nodes := [("A", ⟨"A", "file", "a.js", some "/a", none, none⟩),
              ("B", ⟨"B", "file", "b.js", some "/b", none, none⟩),
              ("C", ⟨"C", "file", "c.js", some "/c", none, none⟩),
              ("D", ⟨"D", "file", "d.js", some "/d", none, none⟩)],
    edges := [⟨"A", "B", "imports", []⟩,
              ⟨"A", "D", "imports", []⟩,
              ⟨"B", "C", "imports", []⟩] }

/-- Options used against `cg2`: outgoing, depth 2, `maxResults` 2. -/
def cg2opts : GNDOptions :=
  ⟨"outgoing", none, 2, 2⟩

/-- Source text of the scenario file `a.js` (`function foo(){ bar(); }` plus
`const {bar} = require('./b')`). -/
def aSrc : String :=
  "function foo() \x7b bar(); \x7d\nconst \x7b bar \x7d = require(\x27./b\x27);\n"

/-- Source text of the scenario file `b.js` (`function bar(){}`). -/
def bSrc : String :=
  "function bar() \x7b\x7d\n"

/-- What `@babel/parser` + `@babel/traverse` extract from `a.js`: the
declaration of `foo`, the bare `require('./b')` specifier, the call to `bar`
inside the named declaration `foo`, and the top-level `require` call itself
(whose callee is not a known function). -/
def astA : Ast :=
  { functions := [⟨"foo", [], ⟨1, 1⟩, "function foo() \x7b bar(); \x7d"⟩],
    classes := [],
    imports := [],
    requireArgs := ["./b"],
    calls := [⟨"bar", some "foo"⟩, ⟨"require", none⟩] }

/-- What the parser extracts from `b.js`. -/
def astB : Ast :=
  { functions := [⟨"bar", [], ⟨1, 1⟩, "function bar() \x7b\x7d"⟩],
    classes := [],
    imports := [],
    requireArgs := [],
    calls := [] }

/-- The scenario file system: `/p/a.js` and `/p/b.js` exist on disk. -/
def scenFs : FS :=
  { readFile := fun p =>
      if p = "/p/a.js" then some aSrc
      else if p = "/p/b.js" then some bSrc
      else none,
    statMtime := fun p =>
      if p = "/p/a.js" ∨ p = "/p/b.js" then some "2024-01-01T00:00:00.000Z"
      else none,
    readdir := fun p =>
      if p = "/p" then some [("a.js", false), ("b.js", false)] else none }

/-- The scenario parser: maps each file's content to its extracted facts. -/
def scenParse (s : String) : Option Ast :=
  if s = aSrc then some astA else if s = bSrc then some astB else none

/-- The scenario code index over the two files. -/
def scenIdx : CodeIndex :=
  { files :=
      [⟨"/p/a.js", "a.js", ".js", aSrc.length, some "2024-01-01T00:00:00.000Z",
        astA.functions, []⟩,
       ⟨"/p/b.js", "b.js", ".js", bSrc.length, some "2024-01-01T00:00:00.000Z",
        astB.functions, []⟩],
    functions :=
      [⟨"foo", [], ⟨1, 1⟩, "function foo() \x7b bar(); \x7d", "/p/a.js"⟩,
       ⟨"bar", [], ⟨1, 1⟩, "function bar() \x7b\x7d", "/p/b.js"⟩],
    classes := [] }

/-- The default dependency-analyzer configuration. -/
def scenDACfg : DAConfig :=
  ⟨3, false⟩

/-- The dependency graph the analyzer builds for the scenario. -/
def scenGraph : DepGraph :=
  buildDependencyGraph scenFs scenParse scenDACfg scenIdx

/-- A semantic-index function item for the mapping-algorithm failing input. -/
def itemFoo : SemEntry :=
  { name := some "foo", filePath := some "f.js", path := none, tokens := [],
    vector := some [], keywords := [], params := some [], methods := none }

/-- One merged search result referring to `itemFoo`. -/
noncomputable def elemFoo : CombElem :=
  { rtype := "function", item := itemFoo, similarity := 0.5, weight := 0.4,
    originalSimilarity := 0.5, dependencyScore := none, finalScore := none }

/-- A graph in which `function:f.js:foo` has one outgoing dependency (its
`contains` edge to its file). -/
def c3graph : DepGraph :=
  { nodes :=
      [("file:f.js", ⟨"file:f.js", "file", "f.js", some "f.js", none, none⟩),
       ("function:f.js:foo",
        ⟨"function:f.js:foo", "function", "foo", none, some "f.js", none⟩)],
    edges := [⟨"function:f.js:foo", "file:f.js", "contains", [("weight", 1)]⟩] }

/-- A graph handle that exposes traversal, bound (as on a
`DependencyAnalyzer` instance) to `getNodeDependencies` of `c3graph` with the
default options (the mapping algorithm passes none). -/
def c3handle : GraphHandle :=
  ⟨some (fun k => getNodeDependencies c3graph k defaultGNDOptions)⟩

/-- A task that declares one dependency identifier. -/
def c3task : Task :=
  { id := "t1", title := some "user login", description := some "allow login",
    ttype := some "feature", keywords := some ["login"],
    dependencies := some ["auth"] }

/-- A non-empty vector all of whose weights are zero. -/
def vZero : Vec :=
  [("a", 0)]

/-- A one-term vector with weight `1`. -/
def vOne : Vec :=
  [("a", 1)]

/-- A one-term vector with weight `-1`. -/
def vNegOne : Vec :=
  [("a", -1)]

/-- A file system on which every operation fails - scanning it indexes
nothing, but `initialize` still completes. -/
def emptyFs : FS :=
  ⟨fun _ => none, fun _ => none, fun _ => none⟩

/-- A parser that rejects everything. -/
def noParse (_s : String) : Option Ast :=
  none

/-- A concrete semantic analyzer with default configuration and empty
state. -/
noncomputable def sa0 : SemanticAnalyzer :=
  { config := ⟨3, ["the", "and", "or", "to", "a", "in", "of", "for", "on",
      "with"], 0.7⟩,
    tokenizeWords := fun _ => [],
    stem := fun s => s,
    tfidf := ⟨[], fun _ => 0⟩,
    semanticIndex := ⟨[], [], []⟩ }

/-- A freshly constructed engine (nothing initialized yet). -/
noncomputable def eng0 : Engine :=
  { indexerConfig := ⟨["node_modules", ".git", "dist", "build"],
      [".js", ".jsx", ".ts", ".tsx"], 3⟩,
    daConfig := ⟨3, false⟩,
    maConfig := ⟨0.7, 10, 0.6, 0.4⟩,
    semanticAnalyzer := sa0,
    codeIndex := none,
    dependencyGraph := none }

/-- A process-global state in which nothing ever assigned
`global.semanticAnalyzer`. -/
def gl0 : GlobalState :=
  ⟨none⟩

/-- A task for the engine-level witness. -/
def task0 : Task :=
  ⟨"t0", some "user login", some "allow a user to log in", some "feature",
    some ["login", "auth"], none⟩

/-! ## Lemmas about the vector utilities -/

theorem sumSq_nonneg (v : Vec) : 0 ≤ sumSq v := by
  apply List.sum_nonneg
  intro x hx
  obtain ⟨p, _, rfl⟩ := List.mem_map.mp hx
  exact mul_self_nonneg _

theorem magnitude_eq_zero_iff (v : Vec) : magnitude v = 0 ↔ sumSq v = 0 := by
  unfold magnitude
  rw [Real.sqrt_eq_zero']
  constructor
  · intro h
    exact le_antisymm h (sumSq_nonneg v)
  · intro h
    exact le_of_eq h

theorem vGet_of_mem (v : Vec) (t : String) (x : ℝ) (hnd : keysNodup v)
    (hm : (t, x) ∈ v) : vGet v t = x := by
  induction v with
  | nil => cases hm
  | cons q tl ih =>
    have hnd' : q.1 ∉ tl.map Prod.fst ∧ (tl.map Prod.fst).Nodup := by
      simpa [keysNodup, List.nodup_cons] using hnd
    rcases List.mem_cons.mp hm with hq | htl
    · subst hq
      simp [vGet, vFind, List.find?_cons]
    · have ht : t ∈ tl.map Prod.fst := List.mem_map.mpr ⟨(t, x), htl, rfl⟩
      have hne : (q.1 == t) = false := by
        rcases hq1 : q.1 == t with _ | _
        · rfl
        · have hqt : q.1 = t := by simpa using hq1
          exact absurd (hqt ▸ ht) hnd'.1
      simp only [vGet, vFind, List.find?_cons, hne]
      exact ih hnd'.2 htl

theorem vGet_of_not_mem (v : Vec) (t : String)
    (h : t ∉ v.map Prod.fst) : vGet v t = 0 := by
  induction v with
  | nil => rfl
  | cons q tl ih =>
    simp only [List.map_cons, List.mem_cons, not_or] at h
    have hne : (q.1 == t) = false := by
      rcases hq1 : q.1 == t with _ | _
      · rfl
      · have hqt : q.1 = t := by simpa using hq1
        exact absurd hqt.symm h.1
    simp only [vGet, vFind, List.find?_cons, hne]
    exact ih h.2

theorem vGet_nonneg (v : Vec) (t : String) (h : vNonneg v) : 0 ≤ vGet v t := by
  unfold vGet vFind
  cases hf : v.find? (fun p => p.1 == t) with
  | none => simp
  | some p =>
    have : p ∈ v := List.mem_of_find?_eq_some hf
    simpa using h p this

theorem dotProduct_self (v : Vec) (hnd : keysNodup v) :
    dotProduct v v = sumSq v := by
  unfold dotProduct sumSq
  congr 1
  apply List.map_congr_left
  intro p hp
  rw [vGet_of_mem v p.1 p.2 hnd (by simpa using hp)]

theorem dotProduct_nonneg (v1 v2 : Vec) (h1 : vNonneg v1) (h2 : vNonneg v2) :
    0 ≤ dotProduct v1 v2 := by
  apply List.sum_nonneg
  intro x hx
  obtain ⟨p, hp, rfl⟩ := List.mem_map.mp hx
  exact mul_nonneg (h1 p hp) (vGet_nonneg v2 p.1 h2)

theorem listSum_key (v : Vec) (hnd : keysNodup v) (f : String → ℝ) :
    (v.map (fun p => f p.1)).sum = ∑ t ∈ (v.map Prod.fst).toFinset, f t := by
  classical
  rw [List.sum_toFinset f hnd, List.map_map]
  rfl

theorem sumSq_eq_finset (v : Vec) (hnd : keysNodup v) (K : Finset String)
    (hsub : (v.map Prod.fst).toFinset ⊆ K) :
    sumSq v = ∑ t ∈ K, (vGet v t) ^ 2 := by
  classical
  have h1 : sumSq v = (v.map (fun p => (vGet v p.1) ^ 2)).sum := by
    unfold sumSq
    congr 1
    apply List.map_congr_left
    intro p hp
    rw [vGet_of_mem v p.1 p.2 hnd (by simpa using hp), sq]
  rw [h1, listSum_key v hnd (fun t => (vGet v t) ^ 2)]
  apply Finset.sum_subset hsub
  intro t _ ht
  rw [vGet_of_not_mem v t (by simpa using ht)]
  simp

theorem dotProduct_eq_finset (v1 v2 : Vec) (h1 : keysNodup v1)
    (K : Finset String) (hsub : (v1.map Prod.fst).toFinset ⊆ K) :
    dotProduct v1 v2 = ∑ t ∈ K, vGet v1 t * vGet v2 t := by
  classical
  have hd : dotProduct v1 v2 = (v1.map (fun p => vGet v1 p.1 * vGet v2 p.1)).sum := by
    unfold dotProduct
    congr 1
    apply List.map_congr_left
    intro p hp
    rw [vGet_of_mem v1 p.1 p.2 h1 (by simpa using hp)]
  rw [hd, listSum_key v1 h1 (fun t => vGet v1 t * vGet v2 t)]
  apply Finset.sum_subset hsub
  intro t _ ht
  rw [vGet_of_not_mem v1 t (by simpa using ht)]
  simp

theorem dotProduct_le_mul_magnitude (v1 v2 : Vec) (h1 : keysNodup v1)
    (h2 : keysNodup v2) :
    dotProduct v1 v2 ≤ magnitude v1 * magnitude v2 := by
  classical
  set K : Finset String :=
    (v1.map Prod.fst).toFinset ∪ (v2.map Prod.fst).toFinset with hKdef
  have hdot := dotProduct_eq_finset v1 v2 h1 K Finset.subset_union_left
  have hs1 := sumSq_eq_finset v1 h1 K Finset.subset_union_left
  have hs2 := sumSq_eq_finset v2 h2 K Finset.subset_union_right
  have hcs := Finset.sum_mul_sq_le_sq_mul_sq K (vGet v1) (vGet v2)
  have hnn1 : 0 ≤ ∑ t ∈ K, (vGet v1 t) ^ 2 :=
    Finset.sum_nonneg (fun _ _ => sq_nonneg _)
  calc dotProduct v1 v2 = ∑ t ∈ K, vGet v1 t * vGet v2 t := hdot
    _ ≤ |∑ t ∈ K, vGet v1 t * vGet v2 t| := le_abs_self _
    _ = Real.sqrt ((∑ t ∈ K, vGet v1 t * vGet v2 t) ^ 2) :=
        (Real.sqrt_sq_eq_abs _).symm
    _ ≤ Real.sqrt ((∑ t ∈ K, (vGet v1 t) ^ 2) * ∑ t ∈ K, (vGet v2 t) ^ 2) :=
        Real.sqrt_le_sqrt hcs
    _ = Real.sqrt (∑ t ∈ K, (vGet v1 t) ^ 2) *
          Real.sqrt (∑ t ∈ K, (vGet v2 t) ^ 2) := Real.sqrt_mul hnn1 _
    _ = magnitude v1 * magnitude v2 := by
        rw [magnitude, magnitude, hs1, hs2]

theorem magnitude_nonneg (v : Vec) : 0 ≤ magnitude v :=
  Real.sqrt_nonneg _

/-- C5 (amended): for every non-empty vector `v` with distinct keys and a
nonzero magnitude, `cosineDistance(v, v) = 0`; `cosineDistance` against an
empty vector is `1` on either side; for vectors with distinct keys and
nonnegative weights the distance lies in `[0, 1]`; and the computation never
divides by zero — a vector of zero magnitude yields distance `1`. (As
stated, the claim fails: a non-empty all-zero vector has distance `1` to
itself, and vectors with negative weights reach distance `2`; see the
counterexample.) -/
theorem cosineDistance_spec (v v1 v2 w w2 : Vec)
    (hv : v ≠ []) (hvnd : keysNodup v) (hvm : magnitude v ≠ 0)
    (h1nd : keysNodup v1) (h2nd : keysNodup v2)
    (h1nn : vNonneg v1) (h2nn : vNonneg v2)
    (hwm : magnitude w = 0) :
    cosineDistance v v = 0 ∧
    cosineDistance v1 ([] : Vec) = 1 ∧
    cosineDistance ([] : Vec) v2 = 1 ∧
    0 ≤ cosineDistance v1 v2 ∧ cosineDistance v1 v2 ≤ 1 ∧
    cosineDistance w w2 = 1 := by
  refine ⟨?_, ?_, ?_, ?_, ?_, ?_⟩
  · have he : v.isEmpty = false := by
      cases v with
      | nil => exact absurd rfl hv
      | cons a l => rfl
    have hS : sumSq v ≠ 0 := fun h => hvm ((magnitude_eq_zero_iff v).mpr h)
    unfold cosineDistance
    rw [if_neg (by simp [he]), if_neg (by simp [hvm])]
    rw [dotProduct_self v hvnd]
    have hmul : magnitude v * magnitude v = sumSq v := by
      rw [magnitude]
      exact Real.mul_self_sqrt (sumSq_nonneg v)
    rw [hmul, div_self hS]
    ring
  · simp [cosineDistance]
  · simp [cosineDistance]
  · unfold cosineDistance
    split
    · norm_num
    · split
      · norm_num
      · rename_i hmag
        push_neg at hmag
        have hp1 : 0 < magnitude v1 :=
          lt_of_le_of_ne (magnitude_nonneg v1) (Ne.symm hmag.1)
        have hp2 : 0 < magnitude v2 :=
          lt_of_le_of_ne (magnitude_nonneg v2) (Ne.symm hmag.2)
        have hle := dotProduct_le_mul_magnitude v1 v2 h1nd h2nd
        have hd1 : dotProduct v1 v2 / (magnitude v1 * magnitude v2) ≤ 1 :=
          (div_le_one (mul_pos hp1 hp2)).mpr hle
        linarith
  · unfold cosineDistance
    split
    · norm_num
    · split
      · norm_num
      · rename_i hmag
        push_neg at hmag
        have hp1 : 0 < magnitude v1 :=
          lt_of_le_of_ne (magnitude_nonneg v1) (Ne.symm hmag.1)
        have hp2 : 0 < magnitude v2 :=
          lt_of_le_of_ne (magnitude_nonneg v2) (Ne.symm hmag.2)
        have hd0 : 0 ≤ dotProduct v1 v2 / (magnitude v1 * magnitude v2) :=
          div_nonneg (dotProduct_nonneg v1 v2 h1nn h2nn) (mul_pos hp1 hp2).le
        linarith
  · unfold cosineDistance
    split
    · rfl
    · rw [if_pos (Or.inl hwm)]

/-- Witness for `cosineDistance_spec` at concrete inputs. -/
theorem cosineDistance_spec_witness :
    vOne ≠ [] ∧ keysNodup vOne ∧ magnitude vOne ≠ 0 ∧ vNonneg vOne ∧
    magnitude vZero = 0 ∧
    (cosineDistance vOne vOne = 0 ∧
      cosineDistance vOne ([] : Vec) = 1 ∧
      cosineDistance ([] : Vec) vOne = 1 ∧
      0 ≤ cosineDistance vOne vOne ∧ cosineDistance vOne vOne ≤ 1 ∧
      cosineDistance vZero vOne = 1) := by
  have hne : vOne ≠ [] := by
    unfold vOne
    exact List.cons_ne_nil _ _
  have hnd : keysNodup vOne := by simp [keysNodup, vOne]
  have hm : magnitude vOne ≠ 0 := by
    have h : sumSq vOne = 1 := by simp [sumSq, vOne]
    rw [magnitude, h, Real.sqrt_one]
    norm_num
  have hnn : vNonneg vOne := by
    intro p hp
    simp only [vOne, List.mem_singleton] at hp
    rw [hp]
    norm_num
  have hz : magnitude vZero = 0 := by
    have h : sumSq vZero = 0 := by simp [sumSq, vZero]
    rw [magnitude, h, Real.sqrt_zero]
  exact ⟨hne, hnd, hm, hnn, hz,
    cosineDistance_spec vOne vOne vOne vZero vOne hne hnd hm hnd hnd hnn hnn hz⟩

/-- C5 counterexample: the non-empty all-zero vector `{a: 0}` has cosine
distance `1`, not `0`, to itself; and `cosineDistance({a:1}, {a:-1}) = 2`,
outside `[0, 1]`. -/
theorem cosineDistance_counterexample :
    vZero ≠ [] ∧ cosineDistance vZero vZero = 1 ∧
    cosineDistance vOne vNegOne = 2 ∧ ¬ cosineDistance vOne vNegOne ≤ 1 := by
  have hz : magnitude vZero = 0 := by
    have h : sumSq vZero = 0 := by simp [sumSq, vZero]
    rw [magnitude, h, Real.sqrt_zero]
  have h2 : cosineDistance vOne vNegOne = 2 := by
    have hm1 : magnitude vOne = 1 := by
      have h : sumSq vOne = 1 := by simp [sumSq, vOne]
      rw [magnitude, h, Real.sqrt_one]
    have hm2 : magnitude vNegOne = 1 := by
      have h : sumSq vNegOne = 1 := by
        simp [sumSq, vNegOne]
      rw [magnitude, h, Real.sqrt_one]
    have hdot : dotProduct vOne vNegOne = -1 := by
      simp [dotProduct, vOne, vNegOne, vGet, vFind]
    unfold cosineDistance
    rw [if_neg (by simp [vOne, vNegOne]),
      if_neg (by simp [hm1, hm2]), hdot, hm1, hm2]
    norm_num
  refine ⟨by unfold vZero; exact List.cons_ne_nil _ _, ?_, h2, ?_⟩
  · unfold cosineDistance
    rw [if_neg (by simp [vZero]), if_pos (Or.inl hz)]
  · rw [h2]
    norm_num

/-! ## Lemmas about the bounded traversal -/

theorem goEdges_mem_prop (g : DepGraph) (opts : GNDOptions)
    (P : DepEntry → Prop) (goN : String → TravState → TravState) (dPlus1 : Nat)
    (hpush : ∀ tid tn e, P ⟨tid, tn, e, dPlus1⟩)
    (hgoN : ∀ t s, (∀ x ∈ s.deps, P x) → ∀ x ∈ (goN t s).deps, P x) :
    ∀ es st, (∀ x ∈ st.deps, P x) →
      ∀ x ∈ (goEdges g opts goN dPlus1 es st).deps, P x := by
  intro es
  induction es with
  | nil =>
    intro st h
    simpa [goEdges] using h
  | cons e es ih =>
    intro st h
    simp only [goEdges]
    split
    · exact ih st h
    · split
      · exact ih st h
      · rename_i targetNode _
        have h1 : ∀ x ∈ st.deps ++ [(⟨pickTarget opts e, targetNode, e, dPlus1⟩ : DepEntry)], P x := by
          intro x hx
          rcases List.mem_append.mp hx with hx | hx
          · exact h x hx
          · rw [List.mem_singleton.mp hx]
            exact hpush _ _ _
        split
        · exact h1
        · exact ih _ (hgoN _ _ h1)

theorem goNode_mem_prop (g : DepGraph) (opts : GNDOptions)
    (P : DepEntry → Prop)
    (hpush : ∀ d, d < opts.depth → ∀ tid tn e, P ⟨tid, tn, e, d + 1⟩) :
    ∀ fuel d n st, (∀ x ∈ st.deps, P x) →
      ∀ x ∈ (goNode g opts fuel d n st).deps, P x := by
  intro fuel
  induction fuel with
  | zero =>
    intro d n st h
    simpa [goNode] using h
  | succ fuel ih =>
    intro d n st h
    simp only [goNode]
    split
    · exact h
    · rename_i hd
      exact goEdges_mem_prop g opts P _ (d + 1)
        (hpush d (by omega)) (fun t s hs => ih (d + 1) t s hs)
        (relevantEdges g opts n) _ h

theorem goEdges_len (g : DepGraph) (opts : GNDOptions)
    (goN : String → TravState → TravState) (dPlus1 B : Nat)
    (hgoN : ∀ t s, s.deps.length < opts.maxResults →
      (goN t s).deps.length ≤ B) :
    ∀ es st, (goEdges g opts goN dPlus1 es st).deps.length ≤
      max (st.deps.length + 1) (max opts.maxResults (B + 1)) := by
  intro es
  induction es with
  | nil =>
    intro st
    simp only [goEdges]
    exact le_trans (Nat.le_succ _) (le_max_left _ _)
  | cons e es ih =>
    intro st
    simp only [goEdges]
    split
    · exact ih st
    · split
      · exact ih st
      · rename_i targetNode _
        split
        · rename_i hstop
          simp only [List.length_append, List.length_singleton]
          exact le_max_left _ _
        · rename_i hcont
          simp only [List.length_append, List.length_singleton] at hcont
          have hlt : (({ st with deps := st.deps ++
              [(⟨pickTarget opts e, targetNode, e, dPlus1⟩ : DepEntry)] } :
                TravState)).deps.length < opts.maxResults := by
            simp only [List.length_append, List.length_singleton]
            omega
          have h2 := hgoN (pickTarget opts e) _ hlt
          have h3 := ih (goN (pickTarget opts e)
            { st with deps := st.deps ++
              [(⟨pickTarget opts e, targetNode, e, dPlus1⟩ : DepEntry)] })
          refine le_trans h3 (max_le ?_ ?_)
          · exact le_trans (by omega) (le_trans (le_max_right _ _)
              (le_max_right _ _))
          · exact le_max_right _ _

theorem goNode_len (g : DepGraph) (opts : GNDOptions) :
    ∀ fuel d n st, st.deps.length < opts.maxResults →
      (goNode g opts fuel d n st).deps.length ≤
        opts.maxResults - 1 + fuel := by
  intro fuel
  induction fuel with
  | zero =>
    intro d n st h
    simp only [goNode]
    omega
  | succ fuel ih =>
    intro d n st h
    simp only [goNode]
    split
    · omega
    · have hE := goEdges_len g opts
        (fun t s => goNode g opts fuel (d + 1) t s) (d + 1)
        (opts.maxResults - 1 + fuel) (fun t s hs => ih (d + 1) t s hs)
        (relevantEdges g opts n) { st with visited := n :: st.visited }
      have hst : (({ st with visited := n :: st.visited } :
          TravState)).deps.length = st.deps.length := rfl
      rw [hst] at hE
      omega

/-- C1 (amended): every entry returned by `getNodeDependencies` has a depth
between `1` and the requested `depth` bound, and — for a positive
`maxResults` — the list has at most `maxResults + depth - 1` entries. (The
claim's stronger guarantees fail: a node id can repeat, and `maxResults` can
be overshot by up to `depth - 1`; see the counterexample.) -/
theorem getNodeDependencies_spec (g : DepGraph) (nodeId : String)
    (opts : GNDOptions) (h : 1 ≤ opts.maxResults) :
    (∀ x ∈ getNodeDependencies g nodeId opts,
      1 ≤ x.depth ∧ x.depth ≤ opts.depth) ∧
    (getNodeDependencies g nodeId opts).length ≤
      opts.maxResults + opts.depth - 1 := by
  unfold getNodeDependencies
  split
  · simp
  · constructor
    · exact goNode_mem_prop g opts
        (fun x => 1 ≤ x.depth ∧ x.depth ≤ opts.depth)
        (fun d hd tid tn e =>
          ⟨by show 1 ≤ d + 1; omega, by show d + 1 ≤ opts.depth; omega⟩)
        opts.depth 0 nodeId
        ⟨[], []⟩ (fun x hx => absurd hx (List.not_mem_nil x))
    · have hlen := goNode_len g opts opts.depth 0 nodeId ⟨[], []⟩ (by
        simpa using h)
      omega

/-- Witness for `getNodeDependencies_spec` at a concrete graph. -/
theorem getNodeDependencies_spec_witness :
    1 ≤ cg1opts.maxResults ∧
    ((∀ x ∈ getNodeDependencies cg1 "A" cg1opts,
        1 ≤ x.depth ∧ x.depth ≤ cg1opts.depth) ∧
      (getNodeDependencies cg1 "A" cg1opts).length ≤
        cg1opts.maxResults + cg1opts.depth - 1) :=
  ⟨by decide, getNodeDependencies_spec cg1 "A" cg1opts (by decide)⟩

/-- C1 counterexample: on `cg1` (parallel `imports` and `requires` edges
`A → B`) the depth-1 traversal returns node `B` twice, because a node
reached at the depth frontier is never marked visited; and on `cg2` with
`maxResults = 2` the traversal returns 3 entries, because the `maxResults`
early return only exits one recursion frame. -/
theorem getNodeDependencies_counterexample :
    ((getNodeDependencies cg1 "A" cg1opts).map (fun x => x.id) = ["B", "B"] ∧
      ¬ ((getNodeDependencies cg1 "A" cg1opts).map (fun x => x.id)).Nodup) ∧
    (cg2opts.maxResults = 2 ∧
      (getNodeDependencies cg2 "A" cg2opts).length = 3) := by
  refine ⟨⟨by decide, by decide⟩, rfl, by decide⟩

/-! ## Lemmas about edge insertion -/

theorem addEdge_nodes (g : DepGraph) (s t ty : String)
    (md : List (String × ℚ)) : (addEdge g s t ty md).nodes = g.nodes := by
  unfold addEdge
  split
  · rfl
  · split <;> rfl

theorem updateFirstEdge_length (es : List GEdge) (s t ty : String)
    (md : List (String × ℚ)) :
    (updateFirstEdge es s t ty md).length = es.length := by
  induction es with
  | nil => rfl
  | cons e es ih =>
    simp only [updateFirstEdge]
    split
    · simp
    · simpa using ih

theorem updateFirstEdge_triples (es : List GEdge) (s t ty : String)
    (md : List (String × ℚ)) :
    (updateFirstEdge es s t ty md).map (fun e => (e.source, e.target, e.etype)) =
      es.map (fun e => (e.source, e.target, e.etype)) := by
  induction es with
  | nil => rfl
  | cons e es ih =>
    simp only [updateFirstEdge]
    split
    · simp
    · simpa using ih

theorem updateFirstEdge_mem (es : List GEdge) (s t ty : String)
    (md : List (String × ℚ)) (x : GEdge)
    (hx : x ∈ updateFirstEdge es s t ty md) :
    ∃ e ∈ es, x.source = e.source ∧ x.target = e.target := by
  induction es with
  | nil => cases hx
  | cons e es ih =>
    simp only [updateFirstEdge] at hx
    revert hx
    split
    · intro hx
      rcases List.mem_cons.mp hx with hx | hx
      · exact ⟨e, List.mem_cons_self e es, by simp [hx], by simp [hx]⟩
      · exact ⟨x, List.mem_cons_of_mem e hx, rfl, rfl⟩
    · intro hx
      rcases List.mem_cons.mp hx with hx | hx
      · exact ⟨e, List.mem_cons_self e es, by simp [hx], by simp [hx]⟩
      · obtain ⟨e', he', hs, ht⟩ := ih hx
        exact ⟨e', List.mem_cons_of_mem e he', hs, ht⟩

/-- C8: `addEdge` is a no-op when either endpoint is missing from the node
map, it preserves the invariant that every edge's endpoints are nodes, and a
repeat insertion with an existing `(source, target, type)` triple keeps the
edge count and the triple list unchanged (only metadata is merged). -/
theorem addEdge_spec
    (g1 : DepGraph) (s1 t1 ty1 : String) (md1 : List (String × ℚ))
    (h1 : (lookupNode g1 s1).isNone = true ∨ (lookupNode g1 t1).isNone = true)
    (g2 : DepGraph) (s2 t2 ty2 : String) (md2 : List (String × ℚ))
    (h2 : ∀ e ∈ g2.edges, (lookupNode g2 e.source).isSome = true ∧
      (lookupNode g2 e.target).isSome = true)
    (g3 : DepGraph) (s3 t3 ty3 : String) (md3 : List (String × ℚ))
    (h3 : g3.edges.any (fun e => e.source == s3 && e.target == t3 &&
      e.etype == ty3) = true) :
    addEdge g1 s1 t1 ty1 md1 = g1 ∧
    (∀ e ∈ (addEdge g2 s2 t2 ty2 md2).edges,
      (lookupNode (addEdge g2 s2 t2 ty2 md2) e.source).isSome = true ∧
      (lookupNode (addEdge g2 s2 t2 ty2 md2) e.target).isSome = true) ∧
    (addEdge g3 s3 t3 ty3 md3).edges.length = g3.edges.length ∧
    (addEdge g3 s3 t3 ty3 md3).edges.map
        (fun e => (e.source, e.target, e.etype)) =
      g3.edges.map (fun e => (e.source, e.target, e.etype)) := by
  refine ⟨?_, ?_, ?_⟩
  · unfold addEdge
    rw [if_pos]
    rcases h1 with h | h <;> simp [h]
  · intro e he
    have hnodes : (addEdge g2 s2 t2 ty2 md2).nodes = g2.nodes :=
      addEdge_nodes g2 s2 t2 ty2 md2
    have hlk : ∀ k, lookupNode (addEdge g2 s2 t2 ty2 md2) k = lookupNode g2 k := by
      intro k
      unfold lookupNode
      rw [hnodes]
    rw [hlk e.source, hlk e.target]
    revert he
    unfold addEdge
    split
    · exact h2 e
    · rename_i hpresent
      have hs : (lookupNode g2 s2).isSome = true := by
        rcases h : lookupNode g2 s2 with _ | _ <;> simp [h] at hpresent ⊢
      have ht : (lookupNode g2 t2).isSome = true := by
        rcases h : lookupNode g2 t2 with _ | _ <;> simp [h] at hpresent ⊢
      split
      · intro he
        obtain ⟨e', he', h1', h2'⟩ :=
          updateFirstEdge_mem g2.edges s2 t2 ty2 md2 e he
        rw [h1', h2']
        exact h2 e' he'
      · intro he
        rcases List.mem_append.mp he with he | he
        · exact h2 e he
        · rw [List.mem_singleton.mp he]
          exact ⟨hs, ht⟩
  · unfold addEdge
    split
    · exact ⟨rfl, rfl⟩
    · exact ⟨updateFirstEdge_length _ _ _ _ _,
        updateFirstEdge_triples _ _ _ _ _⟩

/-- Witness for `addEdge_spec`: a missing endpoint on the empty graph, the
two-node graph `cg1` for the invariant, and a repeat `imports` insertion on
`cg1`. -/
theorem addEdge_spec_witness :
    ((lookupNode ⟨[], []⟩ "a").isNone = true ∨
      (lookupNode (⟨[], []⟩ : DepGraph) "b").isNone = true) ∧
    (∀ e ∈ cg1.edges, (lookupNode cg1 e.source).isSome = true ∧
      (lookupNode cg1 e.target).isSome = true) ∧
    (cg1.edges.any (fun e => e.source == "A" && e.target == "B" &&
      e.etype == "imports") = true) ∧
    (addEdge ⟨[], []⟩ "a" "b" "imports" [] = (⟨[], []⟩ : DepGraph) ∧
      (∀ e ∈ (addEdge cg1 "A" "B" "requires" []).edges,
        (lookupNode (addEdge cg1 "A" "B" "requires" []) e.source).isSome = true ∧
        (lookupNode (addEdge cg1 "A" "B" "requires" []) e.target).isSome = true) ∧
      (addEdge cg1 "A" "B" "imports" [("weight", 7)]).edges.length =
        cg1.edges.length ∧
      (addEdge cg1 "A" "B" "imports" [("weight", 7)]).edges.map
          (fun e => (e.source, e.target, e.etype)) =
        cg1.edges.map (fun e => (e.source, e.target, e.etype))) :=
  ⟨by decide, by decide, by decide,
    addEdge_spec ⟨[], []⟩ "a" "b" "imports" [] (by decide)
      cg1 "A" "B" "requires" [] (by decide)
      cg1 "A" "B" "imports" [("weight", 7)] (by decide)⟩

/-- C7: the change predictor's risk level is `high` iff the total impact
score exceeds 50 or more than 20 files are impacted; `medium` iff it is not
high and the score exceeds 20 or more than 10 files are impacted; `low`
otherwise. -/
theorem calculateRiskLevel_spec (ia : MergedImpact) :
    (calculateRiskLevel ia = "high" ↔
      (50 < ia.totalImpactScore ∨ 20 < ia.impactedFiles.length)) ∧
    (calculateRiskLevel ia = "medium" ↔
      (¬ (50 < ia.totalImpactScore ∨ 20 < ia.impactedFiles.length) ∧
        (20 < ia.totalImpactScore ∨ 10 < ia.impactedFiles.length))) ∧
    (calculateRiskLevel ia = "low" ↔
      (¬ (50 < ia.totalImpactScore ∨ 20 < ia.impactedFiles.length) ∧
        ¬ (20 < ia.totalImpactScore ∨ 10 < ia.impactedFiles.length))) := by
  unfold calculateRiskLevel
  by_cases h1 : 50 < ia.totalImpactScore ∨ 20 < ia.impactedFiles.length
  · rw [if_pos h1]
    exact ⟨iff_of_true rfl h1,
      iff_of_false (by decide) (fun hc => hc.1 h1),
      iff_of_false (by decide) (fun hc => hc.1 h1)⟩
  · rw [if_neg h1]
    by_cases h2 : 20 < ia.totalImpactScore ∨ 10 < ia.impactedFiles.length
    · rw [if_pos h2]
      exact ⟨iff_of_false (by decide) h1,
        iff_of_true rfl ⟨h1, h2⟩,
        iff_of_false (by decide) (fun hc => hc.2 h2)⟩
    · rw [if_neg h2]
      exact ⟨iff_of_false (by decide) h1,
        iff_of_false (by decide) (fun hc => h2 hc.2),
        iff_of_true rfl ⟨h1, h2⟩⟩

/-- C9: a read failure skips the file entirely, a parse failure leaves the
file indexed with empty function and class lists, and in either case the
enclosing directory scan continues with the remaining entries. -/
theorem indexFile_spec
    (fs : FS) (pa : String → Option Ast) (p : String) (idx : CodeIndex)
    (h1 : fs.readFile p = none)
    (fs2 : FS) (pa2 : String → Option Ast) (q : String) (idx2 : CodeIndex)
    (c mt : String)
    (h2 : fs2.readFile q = some c) (h3 : fs2.statMtime q = some mt)
    (h4 : pa2 c = none)
    (fs3 : FS) (pa3 : String → Option Ast) (cfg3 : IndexerConfig)
    (rec3 : String → CodeIndex → CodeIndex) (dp3 : String)
    (es1 es2 : List (String × Bool)) (acc : CodeIndex) (bad : String × Bool)
    (h5 : bad.2 = false)
    (_h6 : cfg3.fileExtensions.contains (extname bad.1) = true)
    (h7 : fs3.readFile (dp3 ++ "/" ++ bad.1) = none) :
    indexFile fs pa p idx = idx ∧
    indexFile fs2 pa2 q idx2 =
      { files := idx2.files ++
          [⟨q, basename q, extname q, c.length, some mt, [], []⟩],
        functions := idx2.functions, classes := idx2.classes } ∧
    (es1 ++ bad :: es2).foldl (scanStep fs3 pa3 cfg3 rec3 dp3) acc =
      (es1 ++ es2).foldl (scanStep fs3 pa3 cfg3 rec3 dp3) acc := by
  refine ⟨?_, ?_, ?_⟩
  · unfold indexFile
    rw [h1]
  · unfold indexFile
    rw [h2, h3]
    simp [parseCode, h4]
  · have hstep : ∀ a : CodeIndex, scanStep fs3 pa3 cfg3 rec3 dp3 a bad = a := by
      intro a
      simp [scanStep, h5, indexFile, h7]
    rw [List.foldl_append, List.foldl_append, List.foldl_cons, hstep]

/-- Witness for `indexFile_spec`: an unreadable file on `emptyFs`, the
scenario file `/p/a.js` with a parser that rejects everything, and a
directory listing containing an unreadable file between two other entries. -/
theorem indexFile_spec_witness :
    emptyFs.readFile "/x.js" = none ∧
    scenFs.readFile "/p/a.js" = some aSrc ∧
    scenFs.statMtime "/p/a.js" = some "2024-01-01T00:00:00.000Z" ∧
    noParse aSrc = none ∧
    ("bad.js", false).2 = false ∧
    ((⟨[], [".js"], 3⟩ : IndexerConfig).fileExtensions.contains
      (extname "bad.js") = true) ∧
    emptyFs.readFile ("/d" ++ "/" ++ ("bad.js", false).1) = none ∧
    (indexFile emptyFs noParse "/x.js" ⟨[], [], []⟩ = ⟨[], [], []⟩ ∧
      indexFile scenFs noParse "/p/a.js" ⟨[], [], []⟩ =
        { files := ([] : List FileEntry) ++
            [⟨"/p/a.js", basename "/p/a.js", extname "/p/a.js", aSrc.length,
              some "2024-01-01T00:00:00.000Z", [], []⟩],
          functions := [], classes := [] } ∧
      ([("a.js", false)] ++ ("bad.js", false) :: []).foldl
          (scanStep emptyFs noParse ⟨[], [".js"], 3⟩ (fun _ i => i) "/d")
          ⟨[], [], []⟩ =
        ([("a.js", false)] ++ []).foldl
          (scanStep emptyFs noParse ⟨[], [".js"], 3⟩ (fun _ i => i) "/d")
          ⟨[], [], []⟩) := by
  refine ⟨rfl, by decide, by decide, rfl, rfl, by decide, rfl, ?_⟩
  exact indexFile_spec emptyFs noParse "/x.js" ⟨[], [], []⟩ rfl
    scenFs noParse "/p/a.js" ⟨[], [], []⟩ aSrc "2024-01-01T00:00:00.000Z"
    (by decide) (by decide) rfl
    emptyFs noParse ⟨[], [".js"], 3⟩ (fun _ i => i) "/d"
    [("a.js", false)] [] ⟨[], [], []⟩ ("bad.js", false)
    rfl (by decide) rfl

/-- C2 (code bug): the extensionless specifier `./b` in `/p/a.js` resolves to
the literal path `/p/b` — not to `/p/b.js`, which exists on disk and which
the spec-modelled resolver (with a working existence oracle) returns —
because `fs.existsSync` does not exist on the promises API and every probe's
`TypeError` is swallowed. Consequently the built graph contains no
file-to-file edge from `a.js` to `b.js` at all, while a specifier that
carries its extension does resolve. -/
theorem resolveImportPath_bug :
    resolveImportPath scenDACfg ("./b") ("/p/a.js") = some ("/p/b") ∧
    resolveImportPathSpec (fun p => p == "/p/a.js" || p == "/p/b.js")
      scenDACfg ("./b") ("/p/a.js") = some ("/p/b.js") ∧
    scenGraph.edges.filter (fun e => e.source == "file:/p/a.js" &&
      e.target == "file:/p/b.js") = [] ∧
    resolveImportPath scenDACfg ("./b.js") ("/p/a.js") = some ("/p/b.js") := by
  exact ⟨by decide, by decide, by decide, by decide⟩

/-- C4 (code bug): on the two-file scenario, the graph has nodes for both
files and both functions and the `calls` edge `foo → bar`, but the expected
`requires` edge `file:a.js → file:b.js` is missing (the extensionless
`require('./b')` resolves to `/p/b`, which is not a node id; see
`resolveImportPath_bug`). -/
theorem scenarioGraph_bug :
    (lookupNode scenGraph ("file:/p/a.js")).isSome = true ∧
    (lookupNode scenGraph ("file:/p/b.js")).isSome = true ∧
    (lookupNode scenGraph ("function:/p/a.js:foo")).isSome = true ∧
    (lookupNode scenGraph ("function:/p/b.js:bar")).isSome = true ∧
    scenGraph.edges.any (fun e => e.source == "function:/p/a.js:foo" &&
      e.target == "function:/p/b.js:bar" && e.etype == "calls") = true ∧
    scenGraph.edges.any (fun e => e.source == "file:/p/a.js" &&
      e.target == "file:/p/b.js" && e.etype == "requires") = false := by
  exact ⟨by decide, by decide, by decide, by decide, by decide, by decide⟩

/-- C3 (code bug): when the dependency graph does expose traversal, a task
with one declared dependency and a result element with one one-hop
dependency makes `rankResultsByDependencies` throw
`TypeError: elemDep.includes is not a function` — the matching loop calls
`.includes` on the `{id, node, edge, depth}` records returned by
`getNodeDependencies` instead of on their id strings — so the claimed
0.1-per-match dependency score is never computed. -/
theorem rankResultsByDependencies_bug :
    rankResultsByDependencies c3handle [elemFoo] c3task =
      Except.error ("TypeError: elemDep.includes is not a function") := by
  rfl

/-- C10: with no external assignment to the process-global semantic-analyzer
slot, `mapTaskToCode` fails with the fatal precondition error even right
after `initialize` completed: `initialize` sets the engine's own `codeIndex`
(so the not-initialized guard passes) and its own analyzer instance, but
`mapTask` reads the analyzer from the global slot, which `initialize` never
writes. -/
theorem mapTaskToCode_globalAnalyzer (fs : FS) (pa : String → Option Ast)
    (eng : Engine) (cbPath : String) (gl : GlobalState) (task : Task)
    (h : gl.semanticAnalyzer = none) :
    (initializeEngine fs pa eng cbPath).codeIndex.isSome = true ∧
    mapTaskToCode (initializeEngine fs pa eng cbPath) gl task =
      Except.error
        ("Semantic analyzer not available. Initialize the code mapping engine first.") := by
  constructor
  · rfl
  · show mapTask gl eng.maConfig task
      (indexCodebase fs pa eng.indexerConfig cbPath) ⟨none⟩ = _
    unfold mapTask
    rw [h]

/-- Witness for `mapTaskToCode_globalAnalyzer` at a concrete engine, file
system and task. -/
theorem mapTaskToCode_globalAnalyzer_witness :
    gl0.semanticAnalyzer = none ∧
    ((initializeEngine emptyFs noParse eng0 ("/repo")).codeIndex.isSome = true ∧
      mapTaskToCode (initializeEngine emptyFs noParse eng0 ("/repo")) gl0
          task0 =
        Except.error
          ("Semantic analyzer not available. Initialize the code mapping engine first.")) :=
  ⟨rfl, mapTaskToCode_globalAnalyzer emptyFs noParse eng0 ("/repo") gl0 task0 rfl⟩

/-! ## Lemmas about the similarity search -/

theorem simScan_mem (qv : Vec) (th : ℝ) (ty : String)
    (es : List (String × SemEntry)) (x : SimResult)
    (hx : x ∈ simScan qv th ty es) : th ≤ x.similarity := by
  unfold simScan at hx
  obtain ⟨p, _, heq⟩ := List.mem_filterMap.mp hx
  dsimp only at heq
  split at heq
  · rename_i hth
    cases heq
    exact hth
  · cases heq

theorem similarity_le_trans :
    ∀ a b c : SimResult, decide (b.similarity ≤ a.similarity) = true →
      decide (c.similarity ≤ b.similarity) = true →
      decide (c.similarity ≤ a.similarity) = true := by
  intro a b c hab hbc
  simp only [decide_eq_true_eq] at *
  exact le_trans hbc hab

theorem similarity_le_total :
    ∀ a b : SimResult, (decide (b.similarity ≤ a.similarity) ||
      decide (a.similarity ≤ b.similarity)) = true := by
  intro a b
  simp only [Bool.or_eq_true, decide_eq_true_eq]
  exact le_total b.similarity a.similarity

/-- C6: `findSimilarElements` returns only elements whose similarity is at or
above the effective threshold, sorted by non-increasing similarity, and at
most `limit` of them. -/
theorem findSimilarElements_spec (sa : SemanticAnalyzer) (query : String)
    (opts : FindOptions) :
    (∀ x ∈ findSimilarElements sa query opts,
      opts.threshold.getD sa.config.similarityThreshold ≤ x.similarity) ∧
    (findSimilarElements sa query opts).Pairwise
      (fun a b => b.similarity ≤ a.similarity) ∧
    (findSimilarElements sa query opts).length ≤ opts.limit.getD 10 := by
  unfold findSimilarElements
  refine ⟨?_, ?_, ?_⟩
  · intro x hx
    have hx1 := (List.take_sublist _ _).subset hx
    have hx2 := List.mem_mergeSort.mp hx1
    rcases List.mem_append.mp hx2 with h12 | hc
    · rcases List.mem_append.mp h12 with hc | hc
      · revert hc
        split
        · exact fun hc => simScan_mem _ _ _ _ x hc
        · intro hc
          cases hc
      · revert hc
        split
        · exact fun hc => simScan_mem _ _ _ _ x hc
        · intro hc
          cases hc
    · revert hc
      split
      · exact fun hc => simScan_mem _ _ _ _ x hc
      · intro hc
        cases hc
  · apply List.Pairwise.sublist (List.take_sublist _ _)
    refine List.Pairwise.imp ?_
      (@List.sorted_mergeSort SimResult
        (fun a b => decide (b.similarity ≤ a.similarity))
        similarity_le_trans similarity_le_total _)
    intro a b hab
    simpa using hab
  · exact List.length_take_le _ _

end CodeMap
